import Mathlib

/-!
Shallow embedding of the core of the `ghregistry` crate
(`src/blobs.rs` and `src/render.rs`), together with theorems settling the
specification claims about the blob transfer engine and the image render
engine.

File names and path components are modelled as lists of characters, file
contents as lists of bytes (`Nat`), the on-disk tree mutated by the render
engine as a list of nodes, and the hash algebra of `ContentDigest`
abstractly as a function `List Nat → List Nat` supplied by the
environment.  `std::fs::remove_dir_all` is modelled with its documented
semantics: it fails with `NotFound` when the path does not exist and with
`NotADirectory` when the path names a regular file (it only removes
directories, recursively, or symlinks).  `clean_whiteouts` is modelled as
this crate actually calls it: on the `BufReader` that extraction already
consumed, whose gzip re-decode fails before any entry is scanned, leaving
the whiteout scan itself as dead code.
-/

namespace Ghregistry

/-- A file or directory name: the characters of one path component. -/
abbrev Name := List Char

/-- A path relative to the target directory, as a list of components. -/
abbrev Path := List Name

/-- Bytes of a file or of an HTTP body. -/
abbrev Bytes := List Nat

/-- Kind of an on-disk node. -/
inductive NodeType
  | file
  | dir
deriving DecidableEq, Repr

/-- A tar entry (also used as an on-disk node): a path, a node kind and,
for regular files, the content bytes. -/
structure Entry where
  path : Path
  typ : NodeType
  content : Bytes
deriving DecidableEq, Repr

/-- The tree under the target directory, as the list of its nodes. -/
abbrev Fs := List Entry

/-- Kind of node found at a path, if any. -/
def Fs.lookup (fs : Fs) (p : Path) : Option NodeType :=
  (fs.find? (fun n => n.path == p)).map (fun n => n.typ)

/-- I/O errors of the render engine: the two `std::fs::remove_dir_all`
failure modes, and the error `gzip::Decoder::new` returns when it cannot
read a gzip header. -/
inductive IoErr
  | notFound
  | notADirectory
  | invalidGzipHeader
deriving DecidableEq, Repr

/-- `std::fs::remove_dir_all`: errors with `NotFound` on a missing path and
with `NotADirectory` on a regular file; on a directory it removes the
directory and everything below it. -/
def removeDirAll (fs : Fs) (p : Path) : Except IoErr Fs :=
  match Fs.lookup fs p with
  | none => .error .notFound
  | some .file => .error .notADirectory
  | some .dir => .ok (fs.filter (fun n => !(p.isPrefixOf n.path)))

/-- `tar::Archive::unpack` writing one entry into the tree: the entry
replaces whatever node was at its path. -/
def extractEntry (fs : Fs) (e : Entry) : Fs :=
  fs.filter (fun n => !(n.path == e.path)) ++ [e]

/-- `tar::Archive::unpack`: extract every entry of a layer, in order. -/
def archiveUnpack (fs : Fs) (layer : List Entry) : Fs :=
  layer.foldl extractEntry fs

/-- The whiteout name prefix `.wh.`. -/
def whMark : Name := ['.', 'w', 'h', '.']

/-- The opaque whiteout marker name `.wh..wh..opq`. -/
def opqMarker : Name := ['.', 'w', 'h', '.', '.', 'w', 'h', '.', '.', 'o', 'p', 'q']

/-- `str::trim_start_matches(".wh.")`: repeatedly strip the prefix `.wh.`
from the front of a name. -/
def trimWhAux : Name → Name
  | '.' :: 'w' :: 'h' :: '.' :: rest => trimWhAux rest
  | l => l

/-- Errors of the render engine (`RenderError`). -/
inductive RenderError
  | wrongTargetPath
  | io (e : IoErr)
deriving DecidableEq, Repr

/-- Processing of one tar entry by the whiteout scan of `clean_whiteouts`
(render.rs:101–120): when the file name is a `.wh.` marker (and not the
opaque marker, which is a TODO in the source), remove the real path behind
the whiteout with `remove_dir_all`, then remove the whiteout placeholder
itself with `remove_dir_all`.  Returns the tree after the mutations that
happened, plus the error that stopped them, if any.  In this crate the
scan is unreachable (see `cleanWhiteouts`); modelled for reference. -/
def whStep (fs : Fs) (p : Path) : Fs × Option IoErr :=
  let parent := p.dropLast
  match p.getLast? with
  | none => (fs, none)
  | some fname =>
    if fname = opqMarker then
      (fs, none)
    else if whMark.isPrefixOf fname then
      let realName := trimWhAux fname
      match removeDirAll fs (parent ++ [realName]) with
      | .error e => (fs, some e)
      | .ok fs1 =>
        match removeDirAll fs1 (parent ++ [fname]) with
        | .error e => (fs1, some e)
        | .ok fs2 => (fs2, none)
    else
      (fs, none)

/-- The entry scan of `clean_whiteouts` (render.rs:100–121): process each
whiteout marker in order; stop at the first error, keeping the mutations
already made.  Unreachable in this crate (see `cleanWhiteouts`); modelled
for reference. -/
def whScan (fs : Fs) : List Entry → Fs × Option IoErr
  | [] => (fs, none)
  | e :: rest =>
    match whStep fs e.path with
    | (fs1, none) => whScan fs1 rest
    | (fs1, some err) => (fs1, some err)

/-- `clean_whiteouts(target_dir, l)` as this crate calls it: every call
site (render.rs:38, 60 and 92) passes the same `BufReader` that
`gzip::Decoder::new(&mut input)` and `archive.unpack` already consumed, and
the reader cannot be rewound, so `gzip::Decoder::new(l)?` at render.rs:98
reads the stream's leftover tail (or end of stream) instead of a gzip
header and fails with an I/O error before any entry is scanned.  The scan
below it (`whScan`) is dead code, the tree is untouched, and the layer's
entries are irrelevant. -/
def cleanWhiteouts (fs : Fs) (layer : List Entry) : Fs × Option IoErr :=
  (fs, some .invalidGzipHeader)

/-- One iteration of the layer loop shared by `unpack` and `unpack_files`:
additive extraction of the layer followed by the whiteout pass — which, in
this crate, always fails on the consumed reader (see `cleanWhiteouts`), so
the iteration ends with the extracted entries on disk and an `Io` error. -/
def unpackLayer (fs : Fs) (layer : List Entry) : Fs × Option RenderError :=
  let fs1 := archiveUnpack fs layer
  match cleanWhiteouts fs1 layer with
  | (fs2, none) => (fs2, none)
  | (fs2, some e) => (fs2, some (.io e))

/-- Layer loop of `unpack`: apply each layer in order, stopping at the
first error. -/
def unpackGo (fs : Fs) : List (List Entry) → Fs × Option RenderError
  | [] => (fs, none)
  | l :: rest =>
    match unpackLayer fs l with
    | (fs1, none) => unpackGo fs1 rest
    | (fs1, some e) => (fs1, some e)

/-- `unpack(layers, target_dir)`: pre-check the target directory, then
apply the ordered layers.  `targetOk` stands for the source's check that
`target_dir` is an absolute path to an existing directory.  The result is
the tree left on disk and the error, if any. -/
def unpack (targetOk : Bool) (layers : List (List Entry)) (fs : Fs) :
    Fs × Option RenderError :=
  if !targetOk then (fs, some .wrongTargetPath)
  else unpackGo fs layers

/-- Layer-file loop of `unpack_files`: a file that cannot be opened is
silently skipped (`if let Ok(f) = ... open(path)`); an opened layer is
extracted, after which the whiteout pass runs on the consumed
`BufReader<File>` (render.rs:60) and fails (see `cleanWhiteouts`). -/
def unpackFilesGo (fs : Fs) : List (Option (List Entry)) → Fs × Option RenderError
  | [] => (fs, none)
  | none :: rest => unpackFilesGo fs rest
  | some l :: rest =>
    match unpackLayer fs l with
    | (fs1, none) => unpackFilesGo fs1 rest
    | (fs1, some e) => (fs1, some e)

/-- `unpack_files(files, target_dir)`: pre-check, then the per-file loop.
Each list element is `some layer` when the file opened (with its parsed
entries) and `none` when opening failed. -/
def unpackFiles (targetOk : Bool) (files : List (Option (List Entry))) (fs : Fs) :
    Fs × Option RenderError :=
  if !targetOk then (fs, some .wrongTargetPath)
  else unpackFilesGo fs files

/-- Layer loop of `unpack_partial`: the source iterates the archive's
entries and matches each path against the prefix filter, but both match
arms are empty, so no entry is extracted; then `clean_whiteouts` runs on
the consumed reader and fails (see `cleanWhiteouts`). -/
def unpackPartialGo (fs : Fs) : List (List Entry) → Fs × Option RenderError
  | [] => (fs, none)
  | l :: rest =>
    match cleanWhiteouts fs l with
    | (fs1, none) => unpackPartialGo fs1 rest
    | (fs1, some e) => (fs1, some (.io e))

/-- `unpack_partial(layers, target_dir, filter)`: pre-check, then the
per-layer loop that extracts nothing (the filter is matched but unused). -/
def unpackPartial (targetOk : Bool) (layers : List (List Entry)) (filter : Path)
    (fs : Fs) : Fs × Option RenderError :=
  if !targetOk then (fs, some .wrongTargetPath)
  else unpackPartialGo fs layers

/-! ### Blob transfer engine (`src/blobs.rs`)

The HTTP collaborator is abstracted by an environment: the class of the
response status, the `Accept-Ranges` header, and the body as the list of
nonempty chunks successive `read` calls return (the stream ends, cleanly or
with a logged read error, after them — the source breaks out of the loop in
both cases).  The `mpsc::Sender` progress channel is modelled by
`hasSender` together with `aliveSends`, the number of sends the receiver
stays alive for: a send beyond that fails and the source's `.unwrap()` on
it panics.  File opens and `create_dir_all` succeed (the source unwraps
them); a file write may fail at a chosen chunk index, which the source
propagates with `?` as an I/O error. -/

/-- Class of an HTTP status: 2xx (`is_success`), 4xx (`is_client_error`),
or anything else. -/
inductive StatusClass
  | success
  | clientError
  | other
deriving DecidableEq, Repr

/-- An HTTP response: status class, optional `Accept-Ranges` header value,
and the body as the successive chunks read from it. -/
structure HttpResponse where
  status : StatusClass
  acceptRanges : Option Name
  chunks : List Bytes
deriving Repr

/-- Errors of the blob engine (`Error` variants the code can produce). -/
inductive BlobError
  | unexpectedHttpStatus (s : StatusClass)
  | client (len : Nat) (body : Bytes)
  | digestMismatch
  | downloadFailed
  | reqwestErr
  | io
deriving DecidableEq, Repr

instance {ε α : Type} [DecidableEq ε] [DecidableEq α] : DecidableEq (Except ε α) :=
  fun a b =>
  match a, b with
  | .error e, .error e' =>
    match decEq e e' with
    | isTrue h => isTrue (by rw [h])
    | isFalse h => isFalse (by intro hc; cases hc; exact h rfl)
  | .ok x, .ok y =>
    match decEq x y with
    | isTrue h => isTrue (by rw [h])
    | isFalse h => isFalse (by intro hc; cases hc; exact h rfl)
  | .error _, .ok _ => isFalse (by intro h; cases h)
  | .ok _, .error _ => isFalse (by intro h; cases h)

/-- How a call ends: a normal return with a `Result`, or a panic from
unwrapping a failed progress send. -/
inductive Exit (α : Type)
  | panicked
  | ret (r : Except BlobError α)

instance {α : Type} [DecidableEq α] : DecidableEq (Exit α) := fun a b =>
  match a, b with
  | .panicked, .panicked => isTrue rfl
  | .ret r, .ret r' =>
    match decEq r r' with
    | isTrue h => isTrue (by rw [h])
    | isFalse h => isFalse (by intro hc; cases hc; exact h rfl)
  | .panicked, .ret _ => isFalse (by intro h; cases h)
  | .ret _, .panicked => isFalse (by intro h; cases h)

/-- The request issued: a plain `GET`, or a `GET` with header
`Range: bytes={lo}-{hi}`. -/
inductive Request
  | plain
  | range (lo hi : Nat)
deriving DecidableEq, Repr

/-- The `Range` bounds of a request, when it has the header. -/
def rangedOf : Request → Option (Nat × Nat)
  | .plain => none
  | .range lo hi => some (lo, hi)

/-- The header value string `none`. -/
def noneName : Name := ['n', 'o', 'n', 'e']

/-- Number of times `Some(sender)` is dropped when the function exits:
exactly the explicit `drop(send)` where the source has one, otherwise the
implicit drop when the owned argument goes out of scope. -/
def relIf (hasSender : Bool) : Nat := if hasSender then 1 else 0

/-- Environment of one `get_blob_with_progress_file` call. -/
structure BlobEnv where
  hash : Bytes → Bytes
  digest : Bytes
  fileBefore : Option Bytes
  size : Option Nat
  hasSender : Bool
  aliveSends : Nat
  connectFails : Bool
  respPlain : HttpResponse
  respRange : Nat → Nat → HttpResponse
  writeErrAt : Option Nat

/-- Observable outcome of one `get_blob_with_progress_file` call. -/
structure FileOutcome where
  exit : Exit Unit
  events : List Nat
  requests : Nat
  ranged : Option (Nat × Nat)
  fileAfter : Option Bytes
  fed : Bytes
  releases : Nat
deriving DecidableEq

/-- Result of the streaming read loop. -/
inductive LoopOut
  | panicked (file fed : Bytes) (events : List Nat)
  | ioErr (file fed : Bytes) (events : List Nat)
  | done (file fed : Bytes) (events : List Nat) (len : Nat)
deriving DecidableEq

/-- The streaming loop of lines 271–290 (and, without the file, of lines
104–122): for each nonempty chunk, send its size on the progress channel
(`unwrap` panics when the receiver is gone), feed it to the hasher, and
append it to the file; a failing file write returns early with `?`.  A
zero-length read breaks the loop. -/
def streamLoop (hasSender : Bool) (alive : Nat) (writeErr : Option Nat) :
    List Bytes → Nat → Nat → Bytes → Bytes → List Nat → Nat → LoopOut
  | [], _, _, file, fed, ev, len => .done file fed ev len
  | c :: rest, k, sent, file, fed, ev, len =>
    if c.length = 0 then .done file fed ev len
    else if hasSender && decide (alive ≤ sent) then .panicked file fed ev
    else
      match writeErr with
      | some j =>
        if j = k then
          .ioErr file (fed ++ c) (if hasSender then ev ++ [c.length] else ev)
        else
          streamLoop hasSender alive writeErr rest (k + 1)
            (if hasSender then sent + 1 else sent) (file ++ c) (fed ++ c)
            (if hasSender then ev ++ [c.length] else ev) (len + c.length)
      | none =>
        streamLoop hasSender alive writeErr rest (k + 1)
          (if hasSender then sent + 1 else sent) (file ++ c) (fed ++ c)
          (if hasSender then ev ++ [c.length] else ev) (len + c.length)

/-- Pre-transfer phase of `get_blob_with_progress_file` (lines 170–209):
either an early return (the cache hit, or a panic on its progress send), or
the state to continue with: the file's current content, the bytes the
incremental hasher was seeded with, and the request to issue. -/
inductive PreResult
  | early (out : FileOutcome)
  | go (fileNow : Option Bytes) (seed : Bytes) (req : Request)

/-- Lines 170–209: if the target exists and `size` is given, a file of
exactly that size is re-hashed — a match emits one progress event of the
expected size and returns the path with no request; a mismatch deletes the
file and falls through to a plain `GET`.  A size mismatch seeds the hasher
from the file and issues `Range: bytes={file_len}-{size}`.  Otherwise a
plain `GET`. -/
def preTransfer (e : BlobEnv) : PreResult :=
  match e.fileBefore with
  | none => .go none [] .plain
  | some c =>
    match e.size with
    | none => .go (some c) [] .plain
    | some s =>
      if c.length = s then
        if e.hash c = e.digest then
          if e.hasSender then
            if 0 < e.aliveSends then
              .early { exit := .ret (.ok ()), events := [s], requests := 0, ranged := none,
                       fileAfter := some c, fed := [], releases := 1 }
            else
              .early { exit := .panicked, events := [], requests := 0, ranged := none,
                       fileAfter := some c, fed := [], releases := 1 }
          else
            .early { exit := .ret (.ok ()), events := [], requests := 0, ranged := none,
                     fileAfter := some c, fed := [], releases := 0 }
        else
          .go none [] .plain
      else
        .go (some c) c (.range c.length s)

/-- Lines 231–268, opening the target file after the response headers
arrived: when `Accept-Ranges` is absent or `none` the file is opened
truncate+write (its content becomes empty); otherwise, when the file is
still there, a synthetic progress event of its current size is sent
(`unwrap` can panic) and the file is opened in append mode; when its
metadata cannot be read (the file is gone) it is opened truncate+write.
Returns the early panic outcome, or the opened file's content together with
the progress events sent and sends performed so far. -/
def openPhase (e : BlobEnv) (rng : Option (Nat × Nat)) (fileNow : Option Bytes)
    (seed : Bytes) (resp : HttpResponse) : Sum FileOutcome (Bytes × List Nat × Nat) :=
  match resp.acceptRanges with
  | none => .inr ([], [], 0)
  | some v =>
    if v = noneName then .inr ([], [], 0)
    else
      match fileNow with
      | some c =>
        if e.hasSender then
          if 0 < e.aliveSends then .inr (c, [c.length], 1)
          else .inl { exit := .panicked, events := [], requests := 1, ranged := rng,
                      fileAfter := some c, fed := seed, releases := relIf e.hasSender }
        else .inr (c, [], 0)
      | none => .inr ([], [], 0)

/-- Lines 211–313, the transfer after the pre-transfer phase decided on
`fileNow`, the hasher seed and the request: a transport failure returns
`DownloadFailed`; a status neither 2xx nor 4xx drops the sender and returns
`UnexpectedHttpStatus`; then the file is opened (`openPhase`), the
streaming loop runs, the sender is dropped, and the status decides between
hash verification (2xx), `ClientError` with empty body (4xx), and the
unreachable `UnexpectedHttpStatus` arm. -/
def transferPhase (e : BlobEnv) (fileNow : Option Bytes) (seed : Bytes)
    (req : Request) : FileOutcome :=
  let rng := rangedOf req
  if e.connectFails then
    { exit := .ret (.error .downloadFailed), events := [], requests := 1, ranged := rng,
      fileAfter := fileNow, fed := seed, releases := relIf e.hasSender }
  else
    let resp := match req with
      | .plain => e.respPlain
      | .range lo hi => e.respRange lo hi
    if ¬(resp.status = .success ∨ resp.status = .clientError) then
      { exit := .ret (.error (.unexpectedHttpStatus resp.status)), events := [],
        requests := 1, ranged := rng, fileAfter := fileNow, fed := seed,
        releases := relIf e.hasSender }
    else
      match openPhase e rng fileNow seed resp with
      | .inl out => out
      | .inr (fileStart, ev0, sent0) =>
        match streamLoop e.hasSender e.aliveSends e.writeErrAt resp.chunks 0 sent0
            fileStart seed ev0 0 with
        | .panicked file fed ev =>
          { exit := .panicked, events := ev, requests := 1, ranged := rng,
            fileAfter := some file, fed := fed, releases := relIf e.hasSender }
        | .ioErr file fed ev =>
          { exit := .ret (.error .io), events := ev, requests := 1, ranged := rng,
            fileAfter := some file, fed := fed, releases := relIf e.hasSender }
        | .done file fed ev len =>
          match resp.status with
          | .success =>
            if e.hash fed = e.digest then
              { exit := .ret (.ok ()), events := ev, requests := 1, ranged := rng,
                fileAfter := some file, fed := fed, releases := relIf e.hasSender }
            else
              { exit := .ret (.error .digestMismatch), events := ev, requests := 1,
                ranged := rng, fileAfter := some file, fed := fed,
                releases := relIf e.hasSender }
          | .clientError =>
            { exit := .ret (.error (.client len [])), events := ev, requests := 1,
              ranged := rng, fileAfter := some file, fed := fed,
              releases := relIf e.hasSender }
          | .other =>
            { exit := .ret (.error (.unexpectedHttpStatus .other)), events := ev,
              requests := 1, ranged := rng, fileAfter := some file, fed := fed,
              releases := relIf e.hasSender }

/-- `get_blob_with_progress_file` (lines 152–313): the pre-transfer cache
protocol followed by the transfer itself. -/
def getBlobToFile (e : BlobEnv) : FileOutcome :=
  match preTransfer e with
  | .early out => out
  | .go fileNow seed req => transferPhase e fileNow seed req


/-- Environment of one `get_blob_with_progress` call. -/
structure ProgEnv where
  hash : Bytes → Bytes
  digest : Bytes
  hasSender : Bool
  aliveSends : Nat
  connectFails : Bool
  resp : HttpResponse

/-- Observable outcome of one `get_blob_with_progress` call. -/
structure ProgOutcome where
  exit : Exit Bytes
  events : List Nat
  releases : Nat
deriving DecidableEq

/-- `get_blob_with_progress` (lines 75–149): transport errors propagate
with `?`; a status neither 2xx nor 4xx drops the sender and returns
`UnexpectedHttpStatus`; otherwise the streaming loop accumulates the body
in memory (the same bytes also feed the hasher), the sender is dropped, and
the status decides between hash verification (2xx) and `ClientError` with
the accumulated body (4xx). -/
def getBlobWithProgress (e : ProgEnv) : ProgOutcome :=
  if e.connectFails then
    { exit := .ret (.error .reqwestErr), events := [], releases := relIf e.hasSender }
  else if ¬(e.resp.status = .success ∨ e.resp.status = .clientError) then
    { exit := .ret (.error (.unexpectedHttpStatus e.resp.status)), events := [],
      releases := relIf e.hasSender }
  else
    match streamLoop e.hasSender e.aliveSends none e.resp.chunks 0 0 [] [] [] 0 with
    | .panicked _ _ ev => { exit := .panicked, events := ev, releases := relIf e.hasSender }
    | .ioErr _ _ ev =>
      { exit := .ret (.error .io), events := ev, releases := relIf e.hasSender }
    | .done _ fed ev _ =>
      match e.resp.status with
      | .success =>
        if e.hash fed = e.digest then
          { exit := .ret (.ok fed), events := ev, releases := relIf e.hasSender }
        else
          { exit := .ret (.error .digestMismatch), events := ev,
            releases := relIf e.hasSender }
      | .clientError =>
        { exit := .ret (.error (.client fed.length fed)), events := ev,
          releases := relIf e.hasSender }
      | .other =>
        { exit := .ret (.error (.unexpectedHttpStatus .other)), events := ev,
          releases := relIf e.hasSender }

/-- `get_blob` (lines 30–72): a status neither 2xx nor 4xx returns
`UnexpectedHttpStatus` before the body is read; otherwise the body is
captured, a 4xx wraps it in `ClientError{status, len, body}`, and a 2xx
returns it after `try_verify` checks it against the digest. -/
def getBlob (hash : Bytes → Bytes) (digest : Bytes) (status : StatusClass)
    (body : Bytes) : Except BlobError Bytes :=
  if ¬(status = .success ∨ status = .clientError) then
    .error (.unexpectedHttpStatus status)
  else
    let blobRes : Except BlobError Bytes :=
      match status with
      | .success => .ok body
      | .clientError => .error (.client body.length body)
      | .other => .error (.unexpectedHttpStatus status)
    match blobRes with
    | .error err => .error err
    | .ok blob => if hash blob = digest then .ok blob else .error .digestMismatch

/-! ### Concrete environments used to evaluate the engine -/

/-- A partial file of 2 bytes with an expected size of 4: the call seeds
the hasher from the file and issues a `Range` request; the server ignores
the range, omits `Accept-Ranges`, and sends the full correct 4-byte body
(the digest, under the identity hash, is that body). -/
def envDowngrade : BlobEnv where
  hash := id
  digest := [10, 11, 12, 13]
  fileBefore := some [1, 2]
  size := some 4
  hasSender := false
  aliveSends := 0
  connectFails := false
  respPlain := { status := .success, acceptRanges := none, chunks := [] }
  respRange := fun _ _ => { status := .success, acceptRanges := none, chunks := [[10, 11, 12, 13]] }
  writeErrAt := none

/-- An existing 2-byte file with no expected size: the call issues a plain
`GET`; the server advertises `Accept-Ranges: bytes` and sends a 2-byte body
whose hash (identity) matches the digest. -/
def envAppend : BlobEnv where
  hash := id
  digest := [3, 4]
  fileBefore := some [1, 2]
  size := none
  hasSender := true
  aliveSends := 10
  connectFails := false
  respPlain := { status := .success,
                 acceptRanges := some ['b', 'y', 't', 'e', 's'],
                 chunks := [[3, 4]] }
  respRange := fun _ _ => { status := .success, acceptRanges := none, chunks := [] }
  writeErrAt := none

/-- A buffered in-memory fetch (`get_blob_with_progress`) with a progress
sender whose receiver disappears after the first send: the body arrives in
two one-byte chunks. -/
def progDropped : ProgEnv where
  hash := id
  digest := [7, 8]
  hasSender := true
  aliveSends := 1
  connectFails := false
  resp := { status := .success, acceptRanges := none, chunks := [[7], [8]] }

/-- A fresh download with a progress sender whose receiver disappears after
the first send: the body arrives in two one-byte chunks. -/
def envDropped : BlobEnv where
  hash := id
  digest := [7, 8]
  fileBefore := none
  size := none
  hasSender := true
  aliveSends := 1
  connectFails := false
  respPlain := { status := .success, acceptRanges := none, chunks := [[7], [8]] }
  respRange := fun _ _ => { status := .success, acceptRanges := none, chunks := [] }
  writeErrAt := none

/-! ### Concrete layers used to evaluate the render engine -/

/-- The whiteout name `.wh.a`. -/
def whA : Name := ['.', 'w', 'h', '.', 'a']

/-- A base layer adding the regular file `a`. -/
def layerAddA : List Entry := [{ path := [['a']], typ := .file, content := [65] }]

/-- An upper layer whose only entry is the whiteout `.wh.a` (a regular
file, as whiteout placeholders are in layer tars). -/
def layerWhA : List Entry := [{ path := [whA], typ := .file, content := [] }]

/-- A whiteout entry `.wh.<x>` in directory `d`, packed as a single-entry
layer. -/
def whEntry (d : Path) (x : Name) (b : Bytes) : Entry :=
  { path := d ++ [whMark ++ x], typ := .file, content := b }

/-- A complete cached file: 2 bytes matching the expected size, hashing
(identity) to the digest. -/
def envCache : BlobEnv where
  hash := id
  digest := [5, 6]
  fileBefore := some [5, 6]
  size := some 2
  hasSender := true
  aliveSends := 1
  connectFails := false
  respPlain := { status := .success, acceptRanges := none, chunks := [] }
  respRange := fun _ _ => { status := .success, acceptRanges := none, chunks := [] }
  writeErrAt := none

/-- A fresh download of the 2-byte blob `[5, 6]` with expected size 2. -/
def envFresh : BlobEnv where
  hash := id
  digest := [5, 6]
  fileBefore := none
  size := some 2
  hasSender := true
  aliveSends := 10
  connectFails := false
  respPlain := { status := .success, acceptRanges := none, chunks := [[5, 6]] }
  respRange := fun _ _ => { status := .success, acceptRanges := none, chunks := [] }
  writeErrAt := none

/-- A corrupt cached file: 1 byte of the expected size 1, but hashing
(identity) to `[1]` while the digest is `[9]`; the server then serves the
correct 1-byte body. -/
def envCorrupt : BlobEnv where
  hash := id
  digest := [9]
  fileBefore := some [1]
  size := some 1
  hasSender := false
  aliveSends := 0
  connectFails := false
  respPlain := { status := .success, acceptRanges := none, chunks := [[9]] }
  respRange := fun _ _ => { status := .success, acceptRanges := none, chunks := [] }
  writeErrAt := none

/-! ### Helper lemmas about the streaming loop and the phases -/

/-- When the streaming loop finishes cleanly, the file and the hasher have
been extended by the same byte sequence. -/
theorem streamLoop_done_eq (hs : Bool) (al : Nat) (w : Option Nat) :
    ∀ (cs : List Bytes) (k sent : Nat) (file fed : Bytes) (ev : List Nat) (len : Nat)
      {file' fed' : Bytes} {ev' : List Nat} {len' : Nat},
      streamLoop hs al w cs k sent file fed ev len = .done file' fed' ev' len' →
      ∃ d, file' = file ++ d ∧ fed' = fed ++ d := by
  intro cs
  induction cs with
  | nil =>
    intro k sent file fed ev len file' fed' ev' len' h
    simp only [streamLoop, LoopOut.done.injEq] at h
    exact ⟨[], by simp [h.1], by simp [h.2.1]⟩
  | cons c rest ih =>
    intro k sent file fed ev len file' fed' ev' len' h
    simp only [streamLoop] at h
    split at h
    · simp only [LoopOut.done.injEq] at h
      exact ⟨[], by simp [h.1], by simp [h.2.1]⟩
    · split at h
      · exact absurd h (by simp)
      · split at h
        · split at h
          · exact absurd h (by simp)
          · obtain ⟨d, h1, h2⟩ := ih _ _ _ _ _ _ h
            exact ⟨c ++ d, by simp [h1], by simp [h2]⟩
        · obtain ⟨d, h1, h2⟩ := ih _ _ _ _ _ _ h
          exact ⟨c ++ d, by simp [h1], by simp [h2]⟩

/-- When the receiver stays alive for exactly `m` more sends and at least
`m + 1` nonempty chunks remain, the loop panics at the failed send with
exactly the first `m` chunks written, hashed and reported. -/
theorem streamLoop_panicked_at :
    ∀ (cs : List Bytes) (m k sent : Nat) (file fed : Bytes) (ev : List Nat) (len : Nat),
      (∀ c ∈ cs, c ≠ []) → m < cs.length →
      streamLoop true (sent + m) none cs k sent file fed ev len =
        .panicked (file ++ (cs.take m).flatten) (fed ++ (cs.take m).flatten)
          (ev ++ (cs.take m).map List.length) := by
  intro cs
  induction cs with
  | nil =>
    intro m k sent file fed ev len hne hm
    exact absurd hm (by simp)
  | cons c rest ih =>
    intro m k sent file fed ev len hne hm
    have hc : c ≠ [] := hne c (by simp)
    have hc0 : ¬ c.length = 0 := by simpa using hc
    cases m with
    | zero =>
      have hcond : (true && decide (sent + 0 ≤ sent)) = true := by simp
      simp [streamLoop, hc0, hcond]
    | succ m =>
      have hcond : (true && decide (sent + (m + 1) ≤ sent)) = false := by
        simp only [Bool.true_and, decide_eq_false_iff_not]
        omega
      have hne' : ∀ c' ∈ rest, c' ≠ [] := fun c' hc' => hne c' (List.mem_cons_of_mem _ hc')
      have hm' : m < rest.length := by simpa using hm
      have step := ih m (k + 1) (sent + 1) (file ++ c) (fed ++ c) (ev ++ [c.length])
        (len + c.length) hne' hm'
      simp only [streamLoop, hc0, hcond, if_false, Bool.false_eq_true, ite_false,
        eq_self_iff_true, if_true]
      rw [show sent + (m + 1) = sent + 1 + m by omega]
      rw [step]
      simp [List.take_succ_cons]

/-- With no file on disk when the response headers arrive, every
`Accept-Ranges` case opens the file truncate+write. -/
theorem openPhase_none (e : BlobEnv) (rng : Option (Nat × Nat)) (seed : Bytes)
    (resp : HttpResponse) : openPhase e rng none seed resp = .inr ([], [], 0) := by
  unfold openPhase
  split
  · rfl
  · split
    · rfl
    · rfl

/-- An early panic outcome of the open phase records exactly one release of
the sender. -/
theorem openPhase_inl_releases (e : BlobEnv) (rng : Option (Nat × Nat))
    (fileNow : Option Bytes) (seed : Bytes) (resp : HttpResponse) (out : FileOutcome)
    (h : openPhase e rng fileNow seed resp = .inl out) :
    out.releases = relIf e.hasSender := by
  unfold openPhase at h
  split at h
  · exact absurd h (by simp)
  · split at h
    · exact absurd h (by simp)
    · split at h
      · split at h
        · split at h
          · exact absurd h (by simp)
          · injection h with h1
            rw [← h1]
        · exact absurd h (by simp)
      · exact absurd h (by simp)

/-- An early return of the pre-transfer phase records exactly one release
of the sender when there is one. -/
theorem preTransfer_early_releases (e : BlobEnv) (out : FileOutcome)
    (h : preTransfer e = .early out) : out.releases = relIf e.hasSender := by
  unfold preTransfer at h
  split at h
  · exact absurd h (by simp)
  · split at h
    · exact absurd h (by simp)
    · split at h
      · split at h
        · split at h
          · split at h
            · injection h with h1
              rw [← h1]
              simp [relIf, *]
            · injection h with h1
              rw [← h1]
              simp [relIf, *]
          · injection h with h1
            rw [← h1]
            simp [relIf, *]
        · exact absurd h (by simp)
      · exact absurd h (by simp)

/-- The transfer phase records exactly one release of the sender on every
path. -/
theorem transferPhase_releases (e : BlobEnv) (fileNow : Option Bytes) (seed : Bytes)
    (req : Request) : (transferPhase e fileNow seed req).releases = relIf e.hasSender := by
  simp only [transferPhase]
  split
  · rfl
  · split
    · rfl
    · split
      next out heq => exact openPhase_inl_releases _ _ _ _ _ _ heq
      next trip heq =>
        split
        · rfl
        · rfl
        · split
          · split
            · rfl
            · rfl
          · rfl
          · rfl

/-- On every path of `get_blob_with_progress_file` the sender, when
provided, is released exactly once. -/
theorem getBlobToFile_releases (e : BlobEnv) :
    (getBlobToFile e).releases = relIf e.hasSender := by
  unfold getBlobToFile
  split
  next out heq => exact preTransfer_early_releases e out heq
  next fileNow seed req heq => exact transferPhase_releases e fileNow seed req

/-- On every path of `get_blob_with_progress` the sender, when provided,
is released exactly once. -/
theorem getBlobWithProgress_releases (p : ProgEnv) :
    (getBlobWithProgress p).releases = relIf p.hasSender := by
  simp only [getBlobWithProgress]
  split
  · rfl
  · split
    · rfl
    · split
      · rfl
      · rfl
      · split
        · split
          · rfl
          · rfl
        · rfl
        · rfl

/-- A missing cache file sends the pre-transfer phase straight to a plain
`GET` with no hasher seed. -/
theorem preTransfer_of_absent (e : BlobEnv) (hf : e.fileBefore = none) :
    preTransfer e = .go none [] .plain := by
  unfold preTransfer
  rw [hf]

/-- A cache file of the expected size whose hash mismatches is deleted and
the pre-transfer phase falls through to a plain `GET` with no hasher
seed. -/
theorem preTransfer_of_corrupt (e : BlobEnv) (c : Bytes) (n : Nat)
    (hf : e.fileBefore = some c) (hs : e.size = some n) (hl : c.length = n)
    (hh : ¬ e.hash c = e.digest) : preTransfer e = .go none [] .plain := by
  unfold preTransfer
  rw [hf, hs]
  simp [hl, hh]

/-- A transfer that starts with no file and no hasher seed issues exactly
one request with the bounds of `req`, and can only return the path after
the file content — equal to the hashed bytes — verified against the
digest. -/
theorem transferPhase_fresh_spec (e : BlobEnv) (req : Request) :
    (transferPhase e none [] req).requests = 1 ∧
    (transferPhase e none [] req).ranged = rangedOf req ∧
    ((transferPhase e none [] req).exit = .ret (.ok ()) →
      (transferPhase e none [] req).fileAfter = some (transferPhase e none [] req).fed ∧
      e.hash (transferPhase e none [] req).fed = e.digest) := by
  simp only [transferPhase, openPhase_none]
  split
  · exact ⟨rfl, rfl, fun h => absurd h (by simp)⟩
  · split
    · exact ⟨rfl, rfl, fun h => absurd h (by simp)⟩
    · split
      next file fed ev heq => exact ⟨rfl, rfl, fun h => absurd h (by simp)⟩
      next file fed ev heq => exact ⟨rfl, rfl, fun h => absurd h (by simp)⟩
      next file fed ev len heq =>
        split
        · split
          next hhash =>
            refine ⟨rfl, rfl, fun _ => ⟨?_, hhash⟩⟩
            obtain ⟨d, h1, h2⟩ := streamLoop_done_eq _ _ _ _ _ _ _ _ _ _ heq
            exact congrArg some (h1.trans (by simpa using h2.symm))
          next hhash => exact ⟨rfl, rfl, fun h => absurd h (by simp)⟩
        · exact ⟨rfl, rfl, fun h => absurd h (by simp)⟩
        · exact ⟨rfl, rfl, fun h => absurd h (by simp)⟩

/-- The cache-hit path: a present file of the expected size whose hash
matches returns the path with one progress event and no request. -/
theorem getBlobToFile_cacheHit (e : BlobEnv) (c : Bytes) (n : Nat)
    (hf : e.fileBefore = some c) (hs : e.size = some n) (hl : c.length = n)
    (hh : e.hash c = e.digest) (hsend : e.hasSender = true)
    (halive : 0 < e.aliveSends) :
    getBlobToFile e =
      { exit := .ret (.ok ()), events := [n], requests := 0, ranged := none,
        fileAfter := some c, fed := [], releases := 1 } := by
  unfold getBlobToFile preTransfer
  rw [hf, hs]
  simp [hl, hh, hsend, halive]

/-- Unfolding `getBlobToFile` once the pre-transfer phase decided to issue
a request. -/
theorem getBlobToFile_go (e : BlobEnv) (fileNow : Option Bytes) (seed : Bytes)
    (req : Request) (h : preTransfer e = .go fileNow seed req) :
    getBlobToFile e = transferPhase e fileNow seed req := by
  unfold getBlobToFile
  rw [h]

/-! ### Claim theorems -/

/-- C1: In `get_blob_with_progress_file`, when the response lacks
`Accept-Ranges` the target file is opened truncate+write, so the on-disk
output equals the full response body — but the hasher seeded from the
pre-existing partial file is NOT restarted: verification runs over the
seed followed by the body, and reports `DigestMismatch` even though the
body (and the resulting file) match the digest exactly.  Evaluation of the
code at the failing input of the claim. -/
theorem range_downgrade_keeps_seeded_hasher :
    (getBlobToFile envDowngrade).fileAfter = some [10, 11, 12, 13] ∧
    envDowngrade.hash [10, 11, 12, 13] = envDowngrade.digest ∧
    (getBlobToFile envDowngrade).fed = [1, 2] ++ [10, 11, 12, 13] ∧
    (getBlobToFile envDowngrade).exit = .ret (.error .digestMismatch) :=
  ⟨rfl, rfl, rfl, rfl⟩

/-- C2: A cached file of the expected size `n` whose contents hash to the
digest short-circuits: no HTTP request, exactly one progress event of value
`n`, and the path is returned; consequently a second identical call after a
successful fresh download (which leaves such a file) performs zero HTTP
requests. -/
theorem getBlobToFile_cache_idempotent :
    (∀ (e : BlobEnv) (c : Bytes) (n : Nat),
        e.fileBefore = some c → e.size = some n → c.length = n →
        e.hash c = e.digest → e.hasSender = true → 0 < e.aliveSends →
        getBlobToFile e =
          { exit := .ret (.ok ()), events := [n], requests := 0, ranged := none,
            fileAfter := some c, fed := [], releases := 1 }) ∧
    (∀ (e : BlobEnv) (B : Bytes) (n : Nat),
        e.fileBefore = none → e.size = some n → e.hasSender = true →
        0 < e.aliveSends →
        (getBlobToFile e).exit = .ret (.ok ()) →
        (getBlobToFile e).fileAfter = some B → B.length = n →
        getBlobToFile { e with fileBefore := some B } =
          { exit := .ret (.ok ()), events := [n], requests := 0, ranged := none,
            fileAfter := some B, fed := [], releases := 1 }) := by
  constructor
  · exact getBlobToFile_cacheHit
  · intro e B n hf hs hsend halive hok hB hlen
    have hrw := getBlobToFile_go e none [] .plain (preTransfer_of_absent e hf)
    obtain ⟨hreq, hrng, hspec⟩ := transferPhase_fresh_spec e .plain
    rw [hrw] at hok hB
    obtain ⟨hfile, hhash⟩ := hspec hok
    rw [hfile] at hB
    injection hB with hBfed
    refine getBlobToFile_cacheHit _ B n rfl hs hlen ?_ hsend halive
    rw [← hBfed]
    exact hhash

/-- Witness for C2 at concrete inputs: a verified 2-byte cache entry, and a
fresh 2-byte download followed by an identical second call. -/
theorem getBlobToFile_cache_idempotent_witness :
    (getBlobToFile envCache =
      { exit := .ret (.ok ()), events := [2], requests := 0, ranged := none,
        fileAfter := some [5, 6], fed := [], releases := 1 }) ∧
    (getBlobToFile { envFresh with fileBefore := some [5, 6] } =
      { exit := .ret (.ok ()), events := [2], requests := 0, ranged := none,
        fileAfter := some [5, 6], fed := [], releases := 1 }) :=
  ⟨getBlobToFile_cache_idempotent.1 envCache [5, 6] 2 rfl rfl rfl rfl rfl (by decide),
   getBlobToFile_cache_idempotent.2 envFresh [5, 6] 2 rfl rfl rfl (by decide) rfl rfl
     rfl⟩

/-- C3: The claimed invariant — the on-disk file is untouched or equals
exactly the bytes fed to the hasher — fails on the code: with no
`expected_size` and an existing file, a server advertising `Accept-Ranges`
makes the engine append the body to the old bytes while the hasher sees
only the body; the call returns the path with the file differing from the
hashed sequence (and from its prior content).  Evaluation of the code at
the failing input. -/
theorem append_mode_breaks_file_hasher_invariant :
    (getBlobToFile envAppend).exit = .ret (.ok ()) ∧
    (getBlobToFile envAppend).fileAfter = some [1, 2, 3, 4] ∧
    (getBlobToFile envAppend).fed = [3, 4] ∧
    ¬ (getBlobToFile envAppend).fileAfter = some ((getBlobToFile envAppend).fed) ∧
    ¬ (getBlobToFile envAppend).fileAfter = envAppend.fileBefore ∧
    ¬ envAppend.hash [1, 2, 3, 4] = envAppend.digest :=
  ⟨rfl, rfl, rfl, by decide, by decide, by decide⟩

/-- C4: A cached file of the expected size whose hash mismatches is deleted
and redownloaded with a full non-`Range` `GET`; when the call returns the
path, the final file equals the hashed bytes and verifies against the
digest. -/
theorem corrupt_cache_full_redownload (e : BlobEnv) (c : Bytes) (n : Nat)
    (hf : e.fileBefore = some c) (hs : e.size = some n) (hl : c.length = n)
    (hh : ¬ e.hash c = e.digest) :
    (getBlobToFile e).ranged = none ∧ (getBlobToFile e).requests = 1 ∧
    ((getBlobToFile e).exit = .ret (.ok ()) →
      (getBlobToFile e).fileAfter = some ((getBlobToFile e).fed) ∧
      e.hash ((getBlobToFile e).fed) = e.digest) := by
  rw [getBlobToFile_go e none [] .plain (preTransfer_of_corrupt e c n hf hs hl hh)]
  obtain ⟨hreq, hrng, hspec⟩ := transferPhase_fresh_spec e .plain
  exact ⟨hrng, hreq, hspec⟩

/-- Witness for C4 at a concrete input: a 1-byte corrupt cache entry and a
successful redownload. -/
theorem corrupt_cache_full_redownload_witness :
    (getBlobToFile envCorrupt).ranged = none ∧
    (getBlobToFile envCorrupt).requests = 1 ∧
    ((getBlobToFile envCorrupt).exit = .ret (.ok ()) →
      (getBlobToFile envCorrupt).fileAfter = some ((getBlobToFile envCorrupt).fed) ∧
      envCorrupt.hash ((getBlobToFile envCorrupt).fed) = envCorrupt.digest) :=
  corrupt_cache_full_redownload envCorrupt [1] 1 rfl rfl rfl (by decide)

/-- C5: In both `get_blob_with_progress` and `get_blob_with_progress_file`,
a provided progress sender is dropped exactly once on every exit path —
success, cache hit, `ClientError`, `UnexpectedHttpStatus`, digest mismatch,
transport and I/O errors, and the panic unwind — and never twice; with no
sender there is nothing to release. -/
theorem progress_sender_released_exactly_once (e : BlobEnv) (p : ProgEnv) :
    (getBlobToFile e).releases = (if e.hasSender then 1 else 0) ∧
    (getBlobWithProgress p).releases = (if p.hasSender then 1 else 0) :=
  ⟨getBlobToFile_releases e, getBlobWithProgress_releases p⟩

/-- C6 counterexample: with the receiver gone, neither engine returns
control to the caller — in both `get_blob_with_progress_file` and
`get_blob_with_progress` the `unwrap` on the failed send panics. -/
theorem dropped_receiver_panics_counterexample :
    (getBlobToFile envDropped).exit = Exit.panicked ∧
    (getBlobWithProgress progDropped).exit = Exit.panicked :=
  ⟨rfl, rfl⟩

/-- C6 as amended: in both engines a failed progress send makes the call
panic (the source unwraps the send result) instead of returning; the
transfer stops there, the progress events are exactly those of the chunks
handled before the failed send, and in the file engine the partial file —
exactly the chunks written before that send — is left on disk. -/
theorem failed_send_panics_leaves_partial (e : BlobEnv) (p : ProgEnv) (m mp : Nat)
    (hsend : e.hasSender = true) (hfile : e.fileBefore = none)
    (hconn : e.connectFails = false) (hst : e.respPlain.status = .success)
    (hw : e.writeErrAt = none)
    (hne : ∀ c ∈ e.respPlain.chunks, c ≠ []) (hm : e.aliveSends = m)
    (hlt : m < e.respPlain.chunks.length)
    (hpsend : p.hasSender = true) (hpconn : p.connectFails = false)
    (hpst : p.resp.status = .success)
    (hpne : ∀ c ∈ p.resp.chunks, c ≠ []) (hpm : p.aliveSends = mp)
    (hplt : mp < p.resp.chunks.length) :
    ((getBlobToFile e).exit = .panicked ∧
     (getBlobToFile e).fileAfter = some ((e.respPlain.chunks.take m).flatten) ∧
     (getBlobToFile e).events = (e.respPlain.chunks.take m).map List.length) ∧
    ((getBlobWithProgress p).exit = .panicked ∧
     (getBlobWithProgress p).events = (p.resp.chunks.take mp).map List.length) := by
  constructor
  · rw [getBlobToFile_go e none [] .plain (preTransfer_of_absent e hfile)]
    have hloop := streamLoop_panicked_at e.respPlain.chunks m 0 0 [] [] [] 0 hne hlt
    rw [Nat.zero_add] at hloop
    simp only [transferPhase, hconn, hst, hsend, hw, hm, openPhase_none,
      Bool.false_eq_true, if_false, ite_false, eq_self_iff_true, true_or, not_true,
      if_true, ite_true]
    rw [hloop]
    simp
  · have hloop := streamLoop_panicked_at p.resp.chunks mp 0 0 [] [] [] 0 hpne hplt
    rw [Nat.zero_add] at hloop
    simp only [getBlobWithProgress, hpconn, hpst, hpsend, hpm,
      Bool.false_eq_true, if_false, ite_false, eq_self_iff_true, true_or, not_true,
      if_true, ite_true]
    rw [hloop]
    simp

/-- Witness for the amended C6 at concrete inputs: in both engines the
receiver survives one send and the body has two chunks. -/
theorem failed_send_panics_leaves_partial_witness :
    ((getBlobToFile envDropped).exit = .panicked ∧
     (getBlobToFile envDropped).fileAfter =
       some ((envDropped.respPlain.chunks.take 1).flatten) ∧
     (getBlobToFile envDropped).events =
       (envDropped.respPlain.chunks.take 1).map List.length) ∧
    ((getBlobWithProgress progDropped).exit = .panicked ∧
     (getBlobWithProgress progDropped).events =
       (progDropped.resp.chunks.take 1).map List.length) :=
  failed_send_panics_leaves_partial envDropped progDropped 1 1 rfl rfl rfl rfl rfl
    (by decide) rfl (by decide) rfl rfl rfl (by decide) rfl (by decide)

/-- C7: `get_blob` returns the body on 2xx only after it verifies against
the digest, wraps a 4xx body as `ClientError{status, len, body}`, and fails
with `UnexpectedHttpStatus` on any other status. -/
theorem getBlob_status_contract (h : Bytes → Bytes) (dg : Bytes) (st : StatusClass)
    (body : Bytes) :
    getBlob h dg st body =
      match st with
      | .success => if h body = dg then .ok body else .error .digestMismatch
      | .clientError => .error (.client body.length body)
      | .other => .error (.unexpectedHttpStatus .other) := by
  cases st <;> simp [getBlob]

/-- C8: The claimed whiteout semantics — after `unpack`, neither the masked
file nor the `.wh.` placeholder exists — fails on the code: `unpack` aborts
with an `Io` error already in the first layer's whiteout pass, because
`clean_whiteouts` re-decodes the `BufReader` that extraction consumed
(render.rs:38, 98); no whiteout is ever processed, the masked file `a`
remains on disk, and the `.wh.a` layer is never applied.  Evaluation of the
code at the failing input of the claim. -/
theorem file_whiteout_unpack_io_error :
    unpack true [layerAddA, layerWhA] [] =
      ([{ path := [['a']], typ := .file, content := [65] }],
       some (.io .invalidGzipHeader)) ∧
    Fs.lookup (unpack true [layerAddA, layerWhA] []).1 [['a']] = some .file ∧
    Fs.lookup (unpack true [layerAddA, layerWhA] []).1 [whA] = none :=
  ⟨rfl, rfl, rfl⟩

/-- C9: The claim that `unpack_partial` extracts exactly the entries under
the prefix fails on the code twice over: the match arm for entries under
the prefix is empty (render.rs:84), so nothing at all is extracted, and the
call then returns an `Io` error from `clean_whiteouts`' gzip decode of the
consumed reader (render.rs:92, 98) — a layer with one entry under the
prefix leaves the target tree empty and the call failing.  Evaluation of
the code at the failing input of the claim. -/
theorem unpack_partial_extracts_nothing :
    unpackPartial true [[{ path := [['p'], ['x']], typ := .file, content := [1] }]]
      [['p']] [] = ([], some (.io .invalidGzipHeader)) ∧
    Fs.lookup ([] : Fs) [['p'], ['x']] = none :=
  ⟨rfl, rfl⟩

/-- C10 counterexample: at the claim's input — a `.wh.a` whiteout whose
masked path does not exist on disk — the `Io` error `unpack` returns is the
gzip decode failure of the consumed reader, not the `NotFound` of the
claimed recursive removal, which is never attempted. -/
theorem unpack_missing_whiteout_counterexample :
    (unpack true [[whEntry [] ['a'] []]] []).2 = some (.io .invalidGzipHeader) ∧
    ¬ (unpack true [[whEntry [] ['a'] []]] []).2 = some (.io .notFound) :=
  ⟨rfl, by decide⟩

/-- C10 as amended: a layer holding a whiteout entry `.wh.<x>` in directory
`d` makes `unpack` and `unpack_files` return an `Io` error after extracting
the placeholder — but the error is `clean_whiteouts` failing to re-decode a
gzip header from the reader extraction already consumed (render.rs:98),
raised before any entry is scanned; the recursive removal of the missing
target (render.rs:114) is never reached, whether or not `d/<x>` exists. -/
theorem unpack_missing_whiteout_target_io (fs : Fs) (d : Path) (x : Name) (b : Bytes) :
    unpack true [[whEntry d x b]] fs =
      (archiveUnpack fs [whEntry d x b], some (.io .invalidGzipHeader)) ∧
    unpackFiles true [some [whEntry d x b]] fs =
      (archiveUnpack fs [whEntry d x b], some (.io .invalidGzipHeader)) := by
  constructor
  · simp [unpack, unpackGo, unpackLayer, cleanWhiteouts]
  · simp [unpackFiles, unpackFilesGo, unpackLayer, cleanWhiteouts]

end Ghregistry
